/-
  Verification of the ddai registry core (src/core/registry, src/commands/adapters/registry).

  The Rust code is shallowly embedded: Rust `String` values are modelled as `List Char`
  (Rust strings are sequences of Unicode scalar values, as is `List Char`), `Vec<T>` as
  `List T`, fallible functions as `Except`, and the file system touched by the
  persistence processor as a map from paths to the JSON documents stored there.
-/
import Mathlib

namespace Ddai

/-- Rust `String` / `&str`: a sequence of Unicode scalar values. -/
abbrev Str := List Char

/-- `CoreError` from src/core/types.rs (payloads are the error messages). -/
inductive CoreError where
  | JSONError (msg : Str)
  | ValidationError (msg : Str)
deriving DecidableEq, Repr

/-- `REGISTRY_VERSION_GENESIS` from src/core/registry/types.rs. -/
def REGISTRY_VERSION_GENESIS : Str := "0.1.0".data

/-- `REGISTRY_FILE_NAME` from src/core/registry/types.rs. -/
def REGISTRY_FILE_NAME : Str := "registry.json".data

/-- `FileName(String)` newtype from src/core/registry/types.rs. -/
structure FileName where
  s : Str
deriving DecidableEq, Repr

/-- `FileVersion(String)` newtype from src/core/registry/types.rs. -/
structure FileVersion where
  s : Str
deriving DecidableEq, Repr

/-- `FileVersion::new()`: the genesis version `"0.1.0"`. -/
def FileVersion.new : FileVersion := ⟨REGISTRY_VERSION_GENESIS⟩

/-- `Directory(String)` newtype from src/core/registry/types.rs. -/
structure Directory where
  s : Str
deriving DecidableEq, Repr

/-- Rust `str::split('.')`: the list of `'.'`-separated chunks; never empty,
    and an empty input yields `[[]]`, exactly as `"".split('.')` yields `[""]`. -/
def splitOnDot : Str → List Str
  | [] => [[]]
  | c :: cs =>
    if c = '.' then [] :: splitOnDot cs
    else
      match splitOnDot cs with
      | [] => [[c]]
      | p :: ps => (c :: p) :: ps

/-- Numeric value of a digit string (most significant first). -/
def digitsVal (ds : Str) : Nat :=
  ds.foldl (fun a c => 10 * a + (c.toNat - 48)) 0

/-- Rust `str::parse::<u32>()`: an optional leading `'+'`, then one or more ASCII
    digits whose value fits in `u32`; `none` models `Err(ParseIntError)`. -/
def parseU32 (s : Str) : Option Nat :=
  let ds := match s with
            | '+' :: r => r
            | _ => s
  if ds = [] then none
  else if ds.all Char.isDigit then
    let v := digitsVal ds
    if v < 4294967296 then some v else none
  else none

/-- Rust `Option::unwrap` on the `parse::<u32>()` results; only reached after the
    code has checked every part parses, so the `none` default is never used there. -/
def unwrapNat (o : Option Nat) : Nat := o.getD 0

/-- `<FileVersion as Validator>::validate` from src/core/registry/types.rs,
    check for check in the order the code performs them. -/
def FileVersion.validate (v : FileVersion) : Except CoreError Unit :=
  if v.s = [] then
    .error (.ValidationError "File version cannot be empty".data)
  else if ¬ v.s.all (fun c => c.isDigit || c = '.') then
    .error (.ValidationError "File version can only contain digit characters & dots".data)
  else
    let parts := splitOnDot v.s
    if parts = [] ∨ parts.any (· = []) then
      .error (.ValidationError "File version must contain at least one non-empty part".data)
    else if parts.length ≠ 3 then
      .error (.ValidationError "File version can have at most three parts".data)
    else if parts.any (fun p => (parseU32 p).isNone) then
      .error (.ValidationError
        "Each part of the file version must be a valid unsigned integer".data)
    else if unwrapNat (parseU32 (parts.getD 0 [])) = 0
        ∧ unwrapNat (parseU32 (parts.getD 1 [])) = 0
        ∧ unwrapNat (parseU32 (parts.getD 2 [])) = 0 then
      .error (.ValidationError "File version cannot be zero".data)
    else if unwrapNat (parseU32 (parts.getD 0 [])) > 255
        ∨ unwrapNat (parseU32 (parts.getD 1 [])) > 255
        ∨ unwrapNat (parseU32 (parts.getD 2 [])) > 255 then
      .error (.ValidationError
        "Each part of the file version must be between 0 and 255".data)
    else
      .ok ()

/-- `FileItem` from src/core/registry/types.rs. -/
structure FileItem where
  name : FileName
  versions : List FileVersion
deriving DecidableEq, Repr

/-- `FileItem::new`: a fresh entry seeded with the genesis version. -/
def FileItem.new (name : FileName) : FileItem :=
  { name := name, versions := [FileVersion.new] }

/-- `FileItem::get_last_version`: `self.versions.last()`. -/
def FileItem.get_last_version (f : FileItem) : Option FileVersion :=
  f.versions.getLast?

/-- `FileItem::update`: push `version` only if it is not already contained. -/
def FileItem.update (f : FileItem) (version : FileVersion) : FileItem :=
  if version ∈ f.versions then f
  else { f with versions := f.versions ++ [version] }

/-- `<FileItem as Validator>::validate` from src/core/registry/types.rs. -/
def FileItem.validate (f : FileItem) : Except CoreError Unit :=
  if f.name.s = [] then
    .error (.ValidationError "File name cannot be empty".data)
  else if f.versions = [] then
    .error (.ValidationError "File must have at least one version".data)
  else
    f.versions.foldr (fun v acc => do let _ ← v.validate; acc) (.ok ())

/-- `Registry` from src/core/registry/types.rs. -/
structure Registry where
  directory : Directory
  files : List FileItem
deriving DecidableEq, Repr

/-- `Registry::new`: an empty registry scoped to `directory`. -/
def Registry.new (directory : Directory) : Registry :=
  { directory := directory, files := [] }

/-- `Registry::remove_file`: `self.files.retain(|file| &file.name != file_name)`. -/
def Registry.remove_file (r : Registry) (file_name : FileName) : Registry :=
  { r with files := r.files.filter (fun f => f.name ≠ file_name) }

/-- `Registry::add_file`: replace wholesale if the name is present, else push. -/
def Registry.add_file (r : Registry) (file : FileItem) : Registry :=
  match r.files.find? (fun f => f.name = file.name) with
  | some _ =>
    let r' := r.remove_file file.name
    { r' with files := r'.files ++ [file] }
  | none => { r with files := r.files ++ [file] }

/-- `Registry::get_file`: first entry with the given name. -/
def Registry.get_file (r : Registry) (file_name : FileName) : Option FileItem :=
  r.files.find? (fun f => f.name = file_name)

/-!
## JSON documents

The registry only ever serializes strings, arrays and objects, so the document
model covers exactly those. `serde_json` guarantees that rendering a document to
bytes and parsing it back is the identity, so the stored file content is modelled
as the document itself; the two byte-level renderings the crate can produce
(`to_writer`, compact, and `to_string_pretty`) are modelled separately below as
`jsonToText` and `jsonToTextPretty` for claims about the textual format.
-/

/-- A JSON document as produced/consumed by serde_json for the registry types. -/
inductive Json where
  | str (s : Str)
  | arr (items : List Json)
  | obj (fields : List (Str × Json))

/-- Lowercase hexadecimal digit, as serde_json emits in `\u00XX` escapes. -/
def hexDigit (n : Nat) : Char :=
  if n < 10 then Char.ofNat (48 + n) else Char.ofNat (87 + n)

/-- serde_json's escaping of one character inside a JSON string literal. -/
def escapeChar (c : Char) : Str :=
  if c = '"' then ['\\', '"']
  else if c = '\\' then ['\\', '\\']
  else if c.toNat = 8 then ['\\', 'b']
  else if c.toNat = 9 then ['\\', 't']
  else if c.toNat = 10 then ['\\', 'n']
  else if c.toNat = 12 then ['\\', 'f']
  else if c.toNat = 13 then ['\\', 'r']
  else if c.toNat < 32 then ['\\', 'u', '0', '0', hexDigit (c.toNat / 16), hexDigit (c.toNat % 16)]
  else [c]

/-- A JSON string literal: quotes around the escaped characters. -/
def strLit (s : Str) : Str :=
  '"' :: (s.map escapeChar).flatten ++ ['"']

mutual

/-- serde_json compact rendering (what `serde_json::to_writer` emits). -/
def jsonToText : Json → Str
  | .str s => strLit s
  | .arr items => '[' :: jsonArrToText items ++ [']']
  | .obj fields => '{' :: jsonObjToText fields ++ ['}']

/-- Compact rendering of array items, comma separated. -/
def jsonArrToText : List Json → Str
  | [] => []
  | [x] => jsonToText x
  | x :: y :: rest => jsonToText x ++ ',' :: jsonArrToText (y :: rest)

/-- Compact rendering of object fields, comma separated. -/
def jsonObjToText : List (Str × Json) → Str
  | [] => []
  | [(k, v)] => strLit k ++ ':' :: jsonToText v
  | (k, v) :: f :: rest => strLit k ++ ':' :: jsonToText v ++ ',' :: jsonObjToText (f :: rest)

end

/-- `ind` levels of serde_json's two-space pretty indentation. -/
def indentOf (ind : Nat) : Str := List.replicate (2 * ind) ' '

mutual

/-- serde_json pretty rendering (what `serde_json::to_string_pretty` emits),
    at indentation level `ind`. -/
def jsonToTextPretty (ind : Nat) : Json → Str
  | .str s => strLit s
  | .arr [] => ['[', ']']
  | .arr (x :: rest) =>
    '[' :: '\n' :: jsonPrettyArr (ind + 1) (x :: rest) ++ '\n' :: indentOf ind ++ [']']
  | .obj [] => ['{', '}']
  | .obj (f :: rest) =>
    '{' :: '\n' :: jsonPrettyObj (ind + 1) (f :: rest) ++ '\n' :: indentOf ind ++ ['}']

/-- Pretty rendering of array items, one per line at level `ind`. -/
def jsonPrettyArr (ind : Nat) : List Json → Str
  | [] => []
  | [x] => indentOf ind ++ jsonToTextPretty ind x
  | x :: y :: rest =>
    indentOf ind ++ jsonToTextPretty ind x ++ ',' :: '\n' :: jsonPrettyArr ind (y :: rest)

/-- Pretty rendering of object fields, one per line at level `ind`. -/
def jsonPrettyObj (ind : Nat) : List (Str × Json) → Str
  | [] => []
  | [(k, v)] => indentOf ind ++ strLit k ++ ':' :: ' ' :: jsonToTextPretty ind v
  | (k, v) :: f :: rest =>
    indentOf ind ++ strLit k ++ ':' :: ' ' :: jsonToTextPretty ind v
      ++ ',' :: '\n' :: jsonPrettyObj ind (f :: rest)

end

/-!
## Serialization of the registry types

`#[derive(Serialize)]` writes struct fields in declaration order; the newtype
wrappers `FileName`, `FileVersion` and `Directory` serialize as their inner
string.
-/

/-- Serialization of `Vec<FileVersion>`. -/
def versionsToJson (vs : List FileVersion) : Json :=
  .arr (vs.map fun v => .str v.s)

/-- Serialization of `FileItem`: `{"name": ..., "versions": [...]}`. -/
def fileItemToJson (f : FileItem) : Json :=
  .obj [("name".data, .str f.name.s), ("versions".data, versionsToJson f.versions)]

/-- Serialization of `Registry`: `{"directory": ..., "files": [...]}`. -/
def registryToJson (r : Registry) : Json :=
  .obj [("directory".data, .str r.directory.s),
        ("files".data, .arr (r.files.map fileItemToJson))]

/-!
## Deserialization of the registry types

`#[derive(Deserialize)]` (without `deny_unknown_fields`) walks the object's
fields in order: a known field fills its slot (a second occurrence is a
"duplicate field" error), an unknown field is skipped, and a slot still empty
at the end is a "missing field" error.
-/

/-- Deserialization of a string (used for the three newtype wrappers). -/
def strFromJson : Json → Except CoreError Str
  | .str s => .ok s
  | _ => .error (.JSONError "invalid type: expected a string".data)

/-- Deserialization of `Vec<FileVersion>`. -/
def versionsFromJson : Json → Except CoreError (List FileVersion)
  | .arr items =>
    items.foldr
      (fun j acc => do
        let s ← strFromJson j
        let rest ← acc
        .ok (FileVersion.mk s :: rest))
      (.ok [])
  | _ => .error (.JSONError "invalid type: expected a sequence".data)

/-- The field-by-field walk of derived `Deserialize` for `FileItem`. -/
def fileItemFields :
    List (Str × Json) → Option Json → Option Json → Except CoreError FileItem
  | [], name?, versions? =>
    match name?, versions? with
    | some nj, some vj => do
      let n ← strFromJson nj
      let vs ← versionsFromJson vj
      .ok ⟨⟨n⟩, vs⟩
    | none, _ => .error (.JSONError "missing field name".data)
    | some _, none => .error (.JSONError "missing field versions".data)
  | (k, v) :: rest, name?, versions? =>
    if k = "name".data then
      match name? with
      | some _ => .error (.JSONError "duplicate field name".data)
      | none => fileItemFields rest (some v) versions?
    else if k = "versions".data then
      match versions? with
      | some _ => .error (.JSONError "duplicate field versions".data)
      | none => fileItemFields rest name? (some v)
    else
      fileItemFields rest name? versions?

/-- Deserialization of `FileItem`. -/
def fileItemFromJson : Json → Except CoreError FileItem
  | .obj fields => fileItemFields fields none none
  | _ => .error (.JSONError "invalid type: expected struct FileItem".data)

/-- Deserialization of `Vec<FileItem>`. -/
def filesFromJson : Json → Except CoreError (List FileItem)
  | .arr items =>
    items.foldr
      (fun j acc => do
        let f ← fileItemFromJson j
        let rest ← acc
        .ok (f :: rest))
      (.ok [])
  | _ => .error (.JSONError "invalid type: expected a sequence".data)

/-- The field-by-field walk of derived `Deserialize` for `Registry`. -/
def registryFields :
    List (Str × Json) → Option Json → Option Json → Except CoreError Registry
  | [], directory?, files? =>
    match directory?, files? with
    | some dj, some fj => do
      let d ← strFromJson dj
      let fs ← filesFromJson fj
      .ok ⟨⟨d⟩, fs⟩
    | none, _ => .error (.JSONError "missing field directory".data)
    | some _, none => .error (.JSONError "missing field files".data)
  | (k, v) :: rest, directory?, files? =>
    if k = "directory".data then
      match directory? with
      | some _ => .error (.JSONError "duplicate field directory".data)
      | none => registryFields rest (some v) files?
    else if k = "files".data then
      match files? with
      | some _ => .error (.JSONError "duplicate field files".data)
      | none => registryFields rest directory? (some v)
    else
      registryFields rest directory? files?

/-- Deserialization of `Registry`. -/
def registryFromJson : Json → Except CoreError Registry
  | .obj fields => registryFields fields none none
  | _ => .error (.JSONError "invalid type: expected struct Registry".data)

/-!
## File system, persistence processor, manager
-/

/-- `std::io::ErrorKind` values the registry code produces or observes. -/
inductive IoErrorKind where
  | NotFound
  | AlreadyExists
  | InvalidData
deriving DecidableEq, Repr

/-- `RegistryError` from src/core/registry/types.rs. -/
inductive RegistryError where
  | InvalidVersion (msg : Str)
  | FileNotFound
  | FsError (kind : IoErrorKind) (msg : Str)
  | CoreError (e : Ddai.CoreError)
deriving DecidableEq, Repr

/-- Message carried by a `CoreError` (used when serde errors convert to I/O errors). -/
def CoreError.msg : CoreError → Str
  | .JSONError m => m
  | .ValidationError m => m

/-- The file system: each path maps to the JSON document stored there, if any. -/
def Fs := Str → Option Json

/-- `ProcessorAdapter::build` from src/commands/adapters/registry/processor.rs:
    `File::create` then `serde_json::to_writer` — (re)creates the file at
    `file_path` with the serialized registry as its content. -/
def ProcessorAdapter.build (fs : Fs) (file_path : Str) (registry : Registry) :
    Except RegistryError Unit × Fs :=
  (.ok (), fun p => if p = file_path then some (registryToJson registry) else fs p)

/-- The byte content `ProcessorAdapter::build` writes for a registry:
    `serde_json::to_writer` emits the compact rendering of the document. -/
def ProcessorAdapter.writtenText (registry : Registry) : Str :=
  jsonToText (registryToJson registry)

/-- `ProcessorAdapter::parse`: `File::open` then `serde_json::from_reader`;
    a serde failure is converted into an I/O error (`e.into()`). -/
def ProcessorAdapter.parse (fs : Fs) (file_path : Str) : Except RegistryError Registry :=
  match fs file_path with
  | none => .error (.FsError .NotFound "No such file or directory".data)
  | some j =>
    match registryFromJson j with
    | .ok r => .ok r
    | .error e => .error (.FsError .InvalidData e.msg)

/-- The `PathBufWrapper` collaborator (src/core/types.rs): the answers the
    manager consumes about the output directory. -/
structure PathBufWrapper where
  to_path_buf : Str
  dir_name : Option Str
  exists_ : Bool

/-- `Manager` (src/core/registry/manager.rs), instantiated with the
    `ProcessorAdapter` persistence processor; the file system is passed
    explicitly to each operation. -/
structure Manager where
  path_buf_wrapper : PathBufWrapper

/-- `Manager::_build_registry_file_path`: `output_dir.join("registry.json")`. -/
def Manager.registry_file_path (m : Manager) : Str :=
  m.path_buf_wrapper.to_path_buf ++ '/' :: REGISTRY_FILE_NAME

/-- `Manager::build_registry`: first-time creation of the registry file. -/
def Manager.build_registry (m : Manager) (fs : Fs) (file : FileName) :
    Except RegistryError Unit × Fs :=
  if ¬ m.path_buf_wrapper.exists_ then
    (.error (.FsError .NotFound "Output directory is missing or invalid".data), fs)
  else if (fs m.registry_file_path).isSome then
    (.error (.FsError .AlreadyExists "Registry file already exists".data), fs)
  else
    match m.path_buf_wrapper.dir_name with
    | none =>
      (.error (.FsError .NotFound "Output directory is missing or invalid".data), fs)
    | some dir_name =>
      let file_item := FileItem.new file
      match file_item.validate with
      | .error e => (.error (.CoreError e), fs)
      | .ok _ =>
        let registry := (Registry.new ⟨dir_name⟩).add_file file_item
        ProcessorAdapter.build fs m.registry_file_path registry

/-- `Manager::update_registry`: read-modify-write of an existing registry file
    (delegating to `build_registry` when the file does not exist yet). -/
def Manager.update_registry (m : Manager) (fs : Fs) (file : FileName)
    (version : FileVersion) : Except RegistryError Unit × Fs :=
  if ¬ (fs m.registry_file_path).isSome then
    m.build_registry fs file
  else
    match version.validate with
    | .error e => (.error (.CoreError e), fs)
    | .ok _ =>
      match ProcessorAdapter.parse fs m.registry_file_path with
      | .error e => (.error e, fs)
      | .ok registry =>
        match registry.get_file file with
        | some fi =>
          ProcessorAdapter.build fs m.registry_file_path
            (registry.add_file (fi.update version))
        | none =>
          ProcessorAdapter.build fs m.registry_file_path
            (registry.add_file (FileItem.new file))

/-!
## Spec-side predicates
-/

/-- Name-uniqueness invariant of §3: at most one File Entry per name. -/
def NamesUnique (r : Registry) : Prop :=
  (r.files.map FileItem.name).Nodup

/-- Registries reachable from `Registry::new` by `add_file` / `remove_file`. -/
inductive Reachable : Registry → Prop
  | new (d : Directory) : Reachable (Registry.new d)
  | add {r : Registry} (f : FileItem) : Reachable r → Reachable (r.add_file f)
  | remove {r : Registry} (n : FileName) : Reachable r → Reachable (r.remove_file n)

/-- The failure condition of the Version validation contract, spelled exactly as
    the spec states it: empty; a character other than a digit or a dot; an empty
    dot-separated part; part count different from 3; a part not parsing as an
    unsigned integer; all parts zero; a part greater than 255. -/
def VersionFailsSpec (s : Str) : Prop :=
  s = [] ∨
  (∃ c ∈ s, ¬ (c.isDigit ∨ c = '.')) ∨
  (∃ p ∈ splitOnDot s, p = []) ∨
  (splitOnDot s).length ≠ 3 ∨
  (∃ p ∈ splitOnDot s, parseU32 p = none) ∨
  (∀ p ∈ splitOnDot s, parseU32 p = some 0) ∨
  (∃ p ∈ splitOnDot s, ∃ n, parseU32 p = some n ∧ 255 < n)

/-- The registry file format of §6, spelled from the spec: the versions field is
    an array of strings. -/
def VersionsJsonSpec : Json → Prop
  | .arr items => ∀ j ∈ items, ∃ s, j = Json.str s
  | _ => False

/-- The registry file format of §6, spelled from the spec: a file entry is an
    object with exactly the fields `name` (a string) and `versions`. -/
def FileJsonSpec : Json → Prop
  | .obj [(k1, v1), (k2, v2)] =>
    k1 = "name".data ∧ k2 = "versions".data ∧
    (∃ s, v1 = Json.str s) ∧ VersionsJsonSpec v2
  | _ => False

/-- The registry file format of §6, spelled from the spec: an object with exactly
    the fields `directory` (a string) and `files` (an array of file entries). -/
def RegistryJsonSpec : Json → Prop
  | .obj [(k1, v1), (k2, v2)] =>
    k1 = "directory".data ∧ k2 = "files".data ∧
    (∃ s, v1 = Json.str s) ∧
    (match v2 with
     | .arr items => ∀ j ∈ items, FileJsonSpec j
     | _ => False)
  | _ => False

/-!
## Concrete fixtures (used to instantiate hypotheses on closed inputs)
-/

/-- A path collaborator answering for an existing output directory `/tmp/output`. -/
def outDirWrapper : PathBufWrapper :=
  { to_path_buf := "/tmp/output".data, dir_name := some "output".data, exists_ := true }

/-- A manager over `outDirWrapper`. -/
def mgr : Manager := { path_buf_wrapper := outDirWrapper }

/-- A registry for `output` holding the single freshly created entry `readme`. -/
def regOne : Registry := ⟨⟨"output".data⟩, [FileItem.new ⟨"readme".data⟩]⟩

/-- A file system holding exactly the serialized `regOne` at the manager's
    registry file path. -/
def fsOne : Fs :=
  fun p => if p = mgr.registry_file_path then some (registryToJson regOne) else none

/-- The empty file system. -/
def fsEmpty : Fs := fun _ => none

/-- A registry document carrying an unknown extra field next to the two
    required ones. -/
def extraFieldJson : Json :=
  .obj [("directory".data, .str "output".data), ("files".data, .arr []),
        ("extra".data, .str "x".data)]

/-- A file system holding `extraFieldJson` at the manager's registry file path. -/
def fsExtra : Fs :=
  fun p => if p = mgr.registry_file_path then some extraFieldJson else none

/-- A file item whose version list contains the same version twice (such a value
    is constructible directly and readable from a registry document, which does
    not forbid duplicates). -/
def dupItem : FileItem :=
  ⟨⟨"dup".data⟩, [FileVersion.mk "1.0.0".data, FileVersion.mk "1.0.0".data]⟩

/-!
## Helper lemmas: registry operations
-/

theorem splitOnDot_ne_nil (s : Str) : splitOnDot s ≠ [] := by
  cases s with
  | nil => simp [splitOnDot]
  | cons c cs =>
    simp only [splitOnDot]
    split
    · simp
    · split <;> simp

theorem find?_filter_ne_name (files : List FileItem) (n : FileName) :
    (files.filter (fun f => f.name ≠ n)).find? (fun f => f.name = n) = none := by
  rw [List.find?_eq_none]
  intro f hf
  rcases List.mem_filter.mp hf with ⟨-, hne⟩
  simpa using hne

/-- After `add_file file`, the entry stored under `file.name` is exactly `file`. -/
theorem get_file_add_file_self (r : Registry) (file : FileItem) :
    (r.add_file file).get_file file.name = some file := by
  unfold Registry.add_file Registry.get_file
  cases hfind : r.files.find? (fun f => f.name = file.name) with
  | some g =>
    simp only [Registry.remove_file, List.find?_append, find?_filter_ne_name]
    simp [List.find?]
  | none =>
    simp only [List.find?_append, hfind]
    simp [List.find?]

/-- `add_file` on a present name drops the old entry wholesale and appends the
    new one (the branch the code takes when `find?` succeeds). -/
theorem add_file_present (r : Registry) (file : FileItem)
    (h : (r.get_file file.name).isSome) :
    (r.add_file file).files = (r.remove_file file.name).files ++ [file] := by
  unfold Registry.add_file
  unfold Registry.get_file at h
  cases hfind : r.files.find? (fun f => f.name = file.name) with
  | some g => rfl
  | none => rw [hfind] at h; simp at h

theorem namesUnique_new (d : Directory) : NamesUnique (Registry.new d) := by
  simp [NamesUnique, Registry.new]

theorem namesUnique_remove (r : Registry) (n : FileName) (h : NamesUnique r) :
    NamesUnique (r.remove_file n) := by
  unfold NamesUnique Registry.remove_file at *
  exact ((List.filter_sublist _).map FileItem.name).nodup h

theorem namesUnique_add (r : Registry) (f : FileItem) (h : NamesUnique r) :
    NamesUnique (r.add_file f) := by
  unfold NamesUnique Registry.add_file at *
  cases hfind : r.files.find? (fun g => g.name = f.name) with
  | some g =>
    simp only [Registry.remove_file, List.map_append, List.map_cons, List.map_nil]
    rw [List.nodup_append]
    refine ⟨((List.filter_sublist _).map FileItem.name).nodup h, List.nodup_singleton _, ?_⟩
    intro a ha
    rcases List.mem_map.mp ha with ⟨g', hg', rfl⟩
    rcases List.mem_filter.mp hg' with ⟨-, hne⟩
    simpa using hne
  | none =>
    simp only [List.map_append, List.map_cons, List.map_nil]
    rw [List.nodup_append]
    refine ⟨h, List.nodup_singleton _, ?_⟩
    intro a ha
    rcases List.mem_map.mp ha with ⟨g', hg', rfl⟩
    have := List.find?_eq_none.mp hfind g' hg'
    simp only [List.mem_singleton]
    intro hcontra
    exact this (by simpa using hcontra)

theorem reachable_namesUnique {r : Registry} (h : Reachable r) : NamesUnique r := by
  induction h with
  | new d => exact namesUnique_new d
  | add f _ ih => exact namesUnique_add _ f ih
  | remove n _ ih => exact namesUnique_remove _ n ih

/-!
## Helper lemmas: FileItem update
-/

theorem update_of_mem {f : FileItem} {v : FileVersion} (h : v ∈ f.versions) :
    f.update v = f := by
  simp [FileItem.update, h]

theorem update_update_self (f : FileItem) (v : FileVersion) :
    (f.update v).update v = f.update v := by
  unfold FileItem.update
  by_cases h : v ∈ f.versions
  · simp [h]
  · simp [h]

/-!
## Helper lemmas: JSON round trip
-/

theorem versionsFromJson_roundtrip (vs : List FileVersion) :
    versionsFromJson (versionsToJson vs) = .ok vs := by
  unfold versionsToJson versionsFromJson
  induction vs with
  | nil => rfl
  | cons v vs ih =>
    simp only [List.map_cons, List.foldr_cons] at *
    rw [ih]
    rfl

theorem fileItemFromJson_roundtrip (f : FileItem) :
    fileItemFromJson (fileItemToJson f) = .ok f := by
  show fileItemFields _ none none = _
  unfold fileItemFields
  rw [if_pos (rfl : ("name".data : Str) = "name".data)]
  unfold fileItemFields
  rw [if_neg (show ¬ (("versions".data : Str) = "name".data) by decide),
      if_pos (rfl : ("versions".data : Str) = "versions".data)]
  unfold fileItemFields
  show (do
    let n ← strFromJson (Json.str f.name.s)
    let vs ← versionsFromJson (versionsToJson f.versions)
    Except.ok (⟨⟨n⟩, vs⟩ : FileItem)) = Except.ok f
  rw [versionsFromJson_roundtrip]
  rfl

theorem filesFromJson_roundtrip (files : List FileItem) :
    filesFromJson (.arr (files.map fileItemToJson)) = .ok files := by
  unfold filesFromJson
  induction files with
  | nil => rfl
  | cons f rest ih =>
    simp only [List.map_cons, List.foldr_cons] at *
    rw [ih, fileItemFromJson_roundtrip]
    rfl

theorem registryFromJson_roundtrip (r : Registry) :
    registryFromJson (registryToJson r) = .ok r := by
  show registryFields _ none none = _
  unfold registryFields
  rw [if_pos (rfl : ("directory".data : Str) = "directory".data)]
  unfold registryFields
  rw [if_neg (show ¬ (("files".data : Str) = "directory".data) by decide),
      if_pos (rfl : ("files".data : Str) = "files".data)]
  unfold registryFields
  show (do
    let d ← strFromJson (Json.str r.directory.s)
    let fs ← filesFromJson (Json.arr (r.files.map fileItemToJson))
    Except.ok (⟨⟨d⟩, fs⟩ : Registry)) = Except.ok r
  rw [filesFromJson_roundtrip]
  rfl

theorem parse_build_roundtrip (fs : Fs) (p : Str) (r : Registry) :
    ProcessorAdapter.parse (ProcessorAdapter.build fs p r).2 p = .ok r := by
  simp [ProcessorAdapter.build, ProcessorAdapter.parse, registryFromJson_roundtrip]

theorem parse_ok_isSome {fs : Fs} {p : Str} {r : Registry}
    (h : ProcessorAdapter.parse fs p = .ok r) : (fs p).isSome = true := by
  unfold ProcessorAdapter.parse at h
  cases hfs : fs p with
  | none => rw [hfs] at h; exact absurd h (by simp)
  | some j => rfl

theorem parse_of_missing (fs : Fs) (p : Str) (h : fs p = none) :
    ProcessorAdapter.parse fs p =
      .error (.FsError .NotFound "No such file or directory".data) := by
  unfold ProcessorAdapter.parse
  rw [h]

/-!
## Helper lemmas: derived Deserialize field handling
-/

theorem registryFields_no_directory (fields : List (Str × Json)) (files? : Option Json)
    (h : ∀ kv ∈ fields, kv.1 ≠ "directory".data) :
    ∃ msg, registryFields fields none files? = .error (.JSONError msg) := by
  induction fields generalizing files? with
  | nil => cases files? <;> exact ⟨_, rfl⟩
  | cons kv rest ih =>
    obtain ⟨k, v⟩ := kv
    have hk : k ≠ "directory".data := h (k, v) (List.mem_cons_self _ _)
    have hrest : ∀ kv ∈ rest, kv.1 ≠ "directory".data :=
      fun kv hkv => h kv (List.mem_cons_of_mem _ hkv)
    unfold registryFields
    rw [if_neg hk]
    by_cases hk2 : k = "files".data
    · rw [if_pos hk2]
      cases files? with
      | some _ => exact ⟨_, rfl⟩
      | none => exact ih (some v) hrest
    · rw [if_neg hk2]
      exact ih files? hrest

theorem registryFields_no_files (fields : List (Str × Json)) (directory? : Option Json)
    (h : ∀ kv ∈ fields, kv.1 ≠ "files".data) :
    ∃ msg, registryFields fields directory? none = .error (.JSONError msg) := by
  induction fields generalizing directory? with
  | nil => cases directory? <;> exact ⟨_, rfl⟩
  | cons kv rest ih =>
    obtain ⟨k, v⟩ := kv
    have hk : k ≠ "files".data := h (k, v) (List.mem_cons_self _ _)
    have hrest : ∀ kv ∈ rest, kv.1 ≠ "files".data :=
      fun kv hkv => h kv (List.mem_cons_of_mem _ hkv)
    unfold registryFields
    by_cases hk1 : k = "directory".data
    · rw [if_pos hk1]
      cases directory? with
      | some _ => exact ⟨_, rfl⟩
      | none => exact ih (some v) hrest
    · rw [if_neg hk1, if_neg hk]
      exact ih directory? hrest

theorem registryFields_append_unknown (k : Str) (v : Json)
    (hk1 : k ≠ "directory".data) (hk2 : k ≠ "files".data)
    (fields : List (Str × Json)) :
    ∀ (directory? files? : Option Json) (r : Registry),
      registryFields fields directory? files? = .ok r →
      registryFields (fields ++ [(k, v)]) directory? files? = .ok r := by
  induction fields with
  | nil =>
    intro directory? files? r h
    simp only [List.nil_append]
    unfold registryFields
    rw [if_neg hk1, if_neg hk2]
    exact h
  | cons kv rest ih =>
    obtain ⟨k', v'⟩ := kv
    intro directory? files? r h
    simp only [List.cons_append]
    unfold registryFields at h ⊢
    by_cases h1 : k' = "directory".data
    · rw [if_pos h1] at h ⊢
      cases directory? with
      | some _ => exact absurd h (by simp)
      | none => exact ih _ _ _ h
    · rw [if_neg h1] at h ⊢
      by_cases h2 : k' = "files".data
      · rw [if_pos h2] at h ⊢
        cases files? with
        | some _ => exact absurd h (by simp)
        | none => exact ih _ _ _ h
      · rw [if_neg h2] at h ⊢
        exact ih _ _ _ h

/-!
## Helper lemmas: version validation against the spec contract
-/

theorem parse_eq_some_unwrap {p : Str} (h : parseU32 p ≠ none) :
    parseU32 p = some (unwrapNat (parseU32 p)) := by
  cases hp : parseU32 p with
  | none => exact absurd hp h
  | some n => rfl

theorem validate_ok_iff (s : Str) :
    (FileVersion.mk s).validate = .ok () ↔ ¬ VersionFailsSpec s := by
  unfold FileVersion.validate
  dsimp only
  by_cases h1 : s = []
  · rw [if_pos h1]
    exact iff_of_false (by simp) (not_not_intro (Or.inl h1))
  rw [if_neg h1]
  by_cases h2 : (s.all fun c => c.isDigit || decide (c = '.')) = true
  swap
  · rw [if_pos h2]
    refine iff_of_false (by simp) (not_not_intro (Or.inr (Or.inl ?_)))
    simp only [List.all_eq_true, Bool.or_eq_true, decide_eq_true_eq] at h2
    push_neg at h2
    obtain ⟨c, hc, hcf⟩ := h2
    exact ⟨c, hc, by simpa [not_or] using hcf⟩
  rw [if_neg (not_not_intro h2)]
  by_cases h3 : splitOnDot s = [] ∨ ((splitOnDot s).any fun x => decide (x = [])) = true
  · rw [if_pos h3]
    refine iff_of_false (by simp) (not_not_intro ?_)
    rcases h3 with h3 | h3
    · exact absurd h3 (splitOnDot_ne_nil s)
    · refine Or.inr (Or.inr (Or.inl ?_))
      simpa using List.any_eq_true.mp h3
  rw [if_neg h3]
  by_cases h4 : (splitOnDot s).length = 3
  swap
  · rw [if_pos h4]
    exact iff_of_false (by simp) (not_not_intro (Or.inr (Or.inr (Or.inr (Or.inl h4)))))
  rw [if_neg (not_not_intro h4)]
  by_cases h5 : ((splitOnDot s).any fun p => (parseU32 p).isNone) = true
  · rw [if_pos h5]
    refine iff_of_false (by simp) (not_not_intro
      (Or.inr (Or.inr (Or.inr (Or.inr (Or.inl ?_))))))
    obtain ⟨p, hp, hnone⟩ := List.any_eq_true.mp h5
    exact ⟨p, hp, Option.isNone_iff_eq_none.mp hnone⟩
  rw [if_neg h5]
  have hnn : ∀ p ∈ splitOnDot s, parseU32 p ≠ none := by
    intro p hp hcon
    exact h5 (List.any_eq_true.mpr ⟨p, hp, by simp [hcon]⟩)
  obtain ⟨a, b, c, habc⟩ := List.length_eq_three.mp h4
  rw [habc]
  have g0 : ([a, b, c] : List Str).getD 0 [] = a := rfl
  have g1 : ([a, b, c] : List Str).getD 1 [] = b := rfl
  have g2 : ([a, b, c] : List Str).getD 2 [] = c := rfl
  rw [g0, g1, g2]
  have hma : a ∈ splitOnDot s := by rw [habc]; simp
  have hmb : b ∈ splitOnDot s := by rw [habc]; simp
  have hmc : c ∈ splitOnDot s := by rw [habc]; simp
  have hsa : parseU32 a = some (unwrapNat (parseU32 a)) :=
    parse_eq_some_unwrap (hnn a hma)
  have hsb : parseU32 b = some (unwrapNat (parseU32 b)) :=
    parse_eq_some_unwrap (hnn b hmb)
  have hsc : parseU32 c = some (unwrapNat (parseU32 c)) :=
    parse_eq_some_unwrap (hnn c hmc)
  by_cases h6 : unwrapNat (parseU32 a) = 0 ∧ unwrapNat (parseU32 b) = 0
      ∧ unwrapNat (parseU32 c) = 0
  · rw [if_pos h6]
    refine iff_of_false (by simp) (not_not_intro
      (Or.inr (Or.inr (Or.inr (Or.inr (Or.inr (Or.inl ?_)))))))
    intro p hp
    rw [habc] at hp
    rcases (by simpa using hp : p = a ∨ p = b ∨ p = c) with rfl | rfl | rfl
    · rw [hsa, h6.1]
    · rw [hsb, h6.2.1]
    · rw [hsc, h6.2.2]
  rw [if_neg h6]
  by_cases h7 : 255 < unwrapNat (parseU32 a) ∨ 255 < unwrapNat (parseU32 b)
      ∨ 255 < unwrapNat (parseU32 c)
  · rw [if_pos h7]
    refine iff_of_false (by simp) (not_not_intro
      (Or.inr (Or.inr (Or.inr (Or.inr (Or.inr (Or.inr ?_)))))))
    rcases h7 with h7 | h7 | h7
    · exact ⟨a, hma, unwrapNat (parseU32 a), hsa, h7⟩
    · exact ⟨b, hmb, unwrapNat (parseU32 b), hsb, h7⟩
    · exact ⟨c, hmc, unwrapNat (parseU32 c), hsc, h7⟩
  rw [if_neg h7]
  refine iff_of_true rfl ?_
  intro hf
  rcases hf with hf | hf | hf | hf | hf | hf | hf
  · exact h1 hf
  · obtain ⟨ch, hch, hcf⟩ := hf
    exact hcf (by simpa using List.all_eq_true.mp h2 ch hch)
  · obtain ⟨p, hp, rfl⟩ := hf
    exact h3 (Or.inr (List.any_eq_true.mpr ⟨[], hp, by simp⟩))
  · exact hf h4
  · obtain ⟨p, hp, hnone⟩ := hf
    exact hnn p hp hnone
  · refine absurd ⟨?_, ?_, ?_⟩ h6
    · rw [hf a hma]; rfl
    · rw [hf b hmb]; rfl
    · rw [hf c hmc]; rfl
  · obtain ⟨p, hp, n, hn, hgt⟩ := hf
    refine absurd ?_ h7
    rw [habc] at hp
    rcases (by simpa using hp : p = a ∨ p = b ∨ p = c) with rfl | rfl | rfl
    · exact Or.inl (Option.some.inj (hn.symm.trans hsa) ▸ hgt)
    · exact Or.inr (Or.inl (Option.some.inj (hn.symm.trans hsb) ▸ hgt))
    · exact Or.inr (Or.inr (Option.some.inj (hn.symm.trans hsc) ▸ hgt))

/-!
## Helper lemmas: manager control flow
-/

theorem validate_errors_are_validation {v : FileVersion} {e : CoreError}
    (h : v.validate = .error e) : ∃ msg, e = .ValidationError msg := by
  unfold FileVersion.validate at h
  dsimp only at h
  split_ifs at h
  all_goals injection h with h2
  all_goals exact ⟨_, h2.symm⟩

theorem update_registry_invalid (m : Manager) (fs : Fs) (file : FileName)
    (version : FileVersion) (e : CoreError)
    (hfile : (fs m.registry_file_path).isSome = true)
    (hbad : version.validate = .error e) :
    m.update_registry fs file version = (.error (.CoreError e), fs) := by
  unfold Manager.update_registry
  rw [if_neg (by simp [hfile]), hbad]

theorem build_registry_already_exists_err (m : Manager) (fs : Fs) (file : FileName)
    (hdir : m.path_buf_wrapper.exists_ = true)
    (hfile : (fs m.registry_file_path).isSome = true) :
    m.build_registry fs file =
      (.error (.FsError .AlreadyExists "Registry file already exists".data), fs) := by
  unfold Manager.build_registry
  rw [if_neg (by simp [hdir]), if_pos hfile]

theorem build_registry_ok_state {m : Manager} {fs fs' : Fs} {file : FileName}
    (h : m.build_registry fs file = (.ok (), fs')) :
    m.path_buf_wrapper.exists_ = true ∧ (fs' m.registry_file_path).isSome = true := by
  unfold Manager.build_registry at h
  by_cases h1 : m.path_buf_wrapper.exists_ = true
  · rw [if_neg (by simp [h1])] at h
    by_cases h2 : (fs m.registry_file_path).isSome = true
    · rw [if_pos h2] at h
      exact absurd h (by simp)
    · rw [if_neg h2] at h
      cases hdn : m.path_buf_wrapper.dir_name with
      | none => rw [hdn] at h; exact absurd h (by simp)
      | some dn =>
        rw [hdn] at h
        dsimp only at h
        cases hv : (FileItem.new file).validate with
        | error e => rw [hv] at h; exact absurd h (by simp)
        | ok u =>
          rw [hv] at h
          dsimp only at h
          have hfs' : fs' = (ProcessorAdapter.build fs m.registry_file_path
              ((Registry.new ⟨dn⟩).add_file (FileItem.new file))).2 :=
            (congrArg Prod.snd h).symm
          refine ⟨h1, ?_⟩
          rw [hfs']
          simp [ProcessorAdapter.build]
  · rw [if_pos (by simpa using h1)] at h
    exact absurd h (by simp)

theorem update_registry_absent_entry (m : Manager) (fs : Fs) (file : FileName)
    (version : FileVersion) (r : Registry)
    (hparse : ProcessorAdapter.parse fs m.registry_file_path = .ok r)
    (habsent : r.get_file file = none)
    (hvalid : version.validate = .ok ()) :
    m.update_registry fs file version =
      ProcessorAdapter.build fs m.registry_file_path
        (r.add_file (FileItem.new file)) := by
  unfold Manager.update_registry
  rw [if_neg (by simp [parse_ok_isSome hparse]), hvalid]
  dsimp only
  rw [hparse]
  dsimp only
  rw [habsent]

theorem update_registry_present_entry (m : Manager) (fs : Fs) (file : FileName)
    (version : FileVersion) (r : Registry) (fi : FileItem)
    (hparse : ProcessorAdapter.parse fs m.registry_file_path = .ok r)
    (hpresent : r.get_file file = some fi)
    (hvalid : version.validate = .ok ()) :
    m.update_registry fs file version =
      ProcessorAdapter.build fs m.registry_file_path
        (r.add_file (fi.update version)) := by
  unfold Manager.update_registry
  rw [if_neg (by simp [parse_ok_isSome hparse]), hvalid]
  dsimp only
  rw [hparse]
  dsimp only
  rw [hpresent]

theorem validate_total (v : FileVersion) :
    v.validate = .ok () ∨ ∃ msg, v.validate = .error (.ValidationError msg) := by
  cases hv : v.validate with
  | ok u => cases u; exact Or.inl rfl
  | error e =>
    obtain ⟨msg, rfl⟩ := validate_errors_are_validation hv
    exact Or.inr ⟨msg, rfl⟩

/-!
## Helper lemmas: the serialized shape against the §6 format
-/

theorem versionsJsonSpec_holds (vs : List FileVersion) :
    VersionsJsonSpec (versionsToJson vs) := by
  show ∀ j ∈ vs.map (fun v => Json.str v.s), ∃ s, j = Json.str s
  intro j hj
  obtain ⟨v, hv, rfl⟩ := List.mem_map.mp hj
  exact ⟨v.s, rfl⟩

theorem fileJsonSpec_holds (f : FileItem) : FileJsonSpec (fileItemToJson f) :=
  ⟨rfl, rfl, ⟨f.name.s, rfl⟩, versionsJsonSpec_holds f.versions⟩

theorem registryJsonSpec_holds (r : Registry) : RegistryJsonSpec (registryToJson r) := by
  refine ⟨rfl, rfl, ⟨r.directory.s, rfl⟩, ?_⟩
  show ∀ j ∈ r.files.map fileItemToJson, FileJsonSpec j
  intro j hj
  obtain ⟨f, hf, rfl⟩ := List.mem_map.mp hj
  exact fileJsonSpec_holds f

/-!
## Claims
-/

/-- C1 (amended): against an existing registry whose parse succeeds and which
    lacks an entry for `file`, `update_registry(file, version)` with a valid
    `version` succeeds and persists a registry whose entry for `file` is the
    seeded entry holding exactly the genesis version `0.1.0`; a supplied
    version other than the genesis version does not appear in the stored
    entry (the supplied version is ignored). -/
theorem c1_update_registry_absent_ignores_version
    (m : Manager) (fs : Fs) (file : FileName) (version : FileVersion) (r : Registry)
    (hparse : ProcessorAdapter.parse fs m.registry_file_path = .ok r)
    (habsent : r.get_file file = none)
    (hvalid : version.validate = .ok ()) :
    ∃ fs', m.update_registry fs file version = (.ok (), fs') ∧
      ∃ e, ProcessorAdapter.parse fs' m.registry_file_path =
          .ok (r.add_file (FileItem.new file)) ∧
        (r.add_file (FileItem.new file)).get_file file = some e ∧
        e.versions = [FileVersion.new] ∧
        (version ≠ FileVersion.new → version ∉ e.versions) := by
  refine ⟨(ProcessorAdapter.build fs m.registry_file_path
    (r.add_file (FileItem.new file))).2, ?_, FileItem.new file, ?_, ?_, rfl, ?_⟩
  · rw [update_registry_absent_entry m fs file version r hparse habsent hvalid]
    rfl
  · exact parse_build_roundtrip fs m.registry_file_path (r.add_file (FileItem.new file))
  · exact get_file_add_file_self r (FileItem.new file)
  · intro hne hmem
    exact hne (by simpa [FileItem.new] using hmem)

/-- C1 witness: the amended theorem applied to `update_registry("newfile", "1.0.0")`
    against `regOne`, which lacks `newfile`. -/
theorem c1_update_registry_absent_witness :
    ∃ fs', mgr.update_registry fsOne ⟨"newfile".data⟩ (FileVersion.mk "1.0.0".data) =
        (.ok (), fs') ∧
      ∃ e, ProcessorAdapter.parse fs' mgr.registry_file_path =
          .ok (regOne.add_file (FileItem.new ⟨"newfile".data⟩)) ∧
        (regOne.add_file (FileItem.new ⟨"newfile".data⟩)).get_file ⟨"newfile".data⟩ =
          some e ∧
        e.versions = [FileVersion.new] ∧
        (FileVersion.mk "1.0.0".data ≠ FileVersion.new →
          FileVersion.mk "1.0.0".data ∉ e.versions) :=
  c1_update_registry_absent_ignores_version mgr fsOne ⟨"newfile".data⟩
    (FileVersion.mk "1.0.0".data) regOne rfl rfl rfl

/-- C1 counterexample: the claim as stated fails at the valid supplied version
    `0.1.0`: the registry file exists, `newfile` is absent, the update succeeds,
    and the stored entry for `newfile` does contain the supplied version
    (it equals the genesis version), contradicting "the supplied version does
    not appear in the stored entry". -/
theorem c1_supplied_version_can_appear :
    (FileVersion.mk "0.1.0".data).validate = .ok () ∧
    regOne.get_file ⟨"newfile".data⟩ = none ∧
    mgr.update_registry fsOne ⟨"newfile".data⟩ (FileVersion.mk "0.1.0".data) =
      (.ok (), (ProcessorAdapter.build fsOne mgr.registry_file_path
        (regOne.add_file (FileItem.new ⟨"newfile".data⟩))).2) ∧
    ∃ e, ProcessorAdapter.parse (ProcessorAdapter.build fsOne mgr.registry_file_path
          (regOne.add_file (FileItem.new ⟨"newfile".data⟩))).2 mgr.registry_file_path =
        .ok (regOne.add_file (FileItem.new ⟨"newfile".data⟩)) ∧
      (regOne.add_file (FileItem.new ⟨"newfile".data⟩)).get_file ⟨"newfile".data⟩ =
        some e ∧
      FileVersion.mk "0.1.0".data ∈ e.versions := by
  refine ⟨rfl, rfl, rfl, FileItem.new ⟨"newfile".data⟩, rfl, rfl, ?_⟩
  exact List.mem_singleton.mpr rfl

/-- C2: `FileVersion::validate` fails with a ValidationError exactly on the
    strings described by `VersionFailsSpec` (empty, a non-digit non-dot
    character, an empty dot-separated part, part count different from 3, a part
    not parsing as an unsigned integer, all parts zero, or a part above 255),
    and succeeds on every other string. -/
theorem c2_fileVersion_validate_contract (s : Str) :
    ((∃ msg, (FileVersion.mk s).validate = .error (.ValidationError msg)) ↔
      VersionFailsSpec s) ∧
    ((FileVersion.mk s).validate = .ok () ↔ ¬ VersionFailsSpec s) := by
  refine ⟨⟨?_, ?_⟩, validate_ok_iff s⟩
  · rintro ⟨msg, hmsg⟩
    by_contra hns
    rw [(validate_ok_iff s).mpr hns] at hmsg
    exact absurd hmsg (by simp)
  · intro hfs
    rcases validate_total (FileVersion.mk s) with hok | ⟨msg, herr⟩
    · exact absurd hfs ((validate_ok_iff s).mp hok)
    · exact ⟨msg, herr⟩

/-- C3: round-trip law — writing any registry with the processor's `build` and
    reading it back with `parse` at the same path yields the same registry
    (structural equality on the directory label and the ordered entries). -/
theorem c3_parse_after_build_roundtrip (fs : Fs) (p : Str) (r : Registry) :
    ProcessorAdapter.parse (ProcessorAdapter.build fs p r).2 p = .ok r :=
  parse_build_roundtrip fs p r

/-- C4: when the registry file exists and the version fails validation,
    `update_registry` returns the validation error (a CoreError, not a
    filesystem error) and leaves the file system untouched; the version is
    checked before the stored registry is even parsed, so this holds for any
    stored content. -/
theorem c4_update_invalid_version_no_write (m : Manager) (fs : Fs) (file : FileName)
    (version : FileVersion) (e : CoreError)
    (hfile : (fs m.registry_file_path).isSome = true)
    (hbad : version.validate = .error e) :
    m.update_registry fs file version = (.error (.CoreError e), fs) ∧
    ∃ msg, e = .ValidationError msg :=
  ⟨update_registry_invalid m fs file version e hfile hbad,
   validate_errors_are_validation hbad⟩

/-- C4 witness: `update_registry("readme", "bad.version")` against the existing
    `regOne` file. -/
theorem c4_update_invalid_version_witness :
    mgr.update_registry fsOne ⟨"readme".data⟩ (FileVersion.mk "bad.version".data) =
      (.error (.CoreError (.ValidationError
        "File version can only contain digit characters & dots".data)), fsOne) ∧
    ∃ msg, (CoreError.ValidationError
        "File version can only contain digit characters & dots".data) =
      .ValidationError msg :=
  c4_update_invalid_version_no_write mgr fsOne ⟨"readme".data⟩
    (FileVersion.mk "bad.version".data)
    (.ValidationError "File version can only contain digit characters & dots".data)
    rfl rfl

/-- C5 (amended): `build(path, registry)` succeeds, stores the serialized
    registry document at `path`, the bytes written are the compact (not
    pretty-printed) rendering of that document, and the document has exactly
    the `directory`/`files` shape of §6. -/
theorem c5_build_writes_compact_schema (fs : Fs) (p : Str) (r : Registry) :
    (ProcessorAdapter.build fs p r).1 = .ok () ∧
    (ProcessorAdapter.build fs p r).2 p = some (registryToJson r) ∧
    ProcessorAdapter.writtenText r = jsonToText (registryToJson r) ∧
    RegistryJsonSpec (registryToJson r) :=
  ⟨rfl, by simp [ProcessorAdapter.build], rfl, registryJsonSpec_holds r⟩

/-- C5 counterexample: the bytes `build` writes for `regOne` are not the
    pretty-printed rendering — `serde_json::to_writer` emits compact JSON, so
    the claim's "pretty-printed" is wrong. -/
theorem c5_written_text_not_pretty :
    ProcessorAdapter.writtenText regOne ≠ jsonToTextPretty 0 (registryToJson regOne) := by
  decide

/-- C6 (amended): `parse` fails on an unreadable path; deserialization fails
    when a required field (`directory` or `files`) is missing; but an unknown
    extra field is silently ignored (appending one to a document that parses
    successfully leaves the result unchanged), not a deserialization failure. -/
theorem c6_parse_schema_strictness :
    (∀ (fs : Fs) (p : Str), fs p = none →
      ProcessorAdapter.parse fs p =
        .error (.FsError .NotFound "No such file or directory".data)) ∧
    (∀ fields, (∀ kv ∈ fields, kv.1 ≠ "directory".data) →
      ∃ msg, registryFromJson (.obj fields) = .error (.JSONError msg)) ∧
    (∀ fields, (∀ kv ∈ fields, kv.1 ≠ "files".data) →
      ∃ msg, registryFromJson (.obj fields) = .error (.JSONError msg)) ∧
    (∀ fields k v r, k ≠ "directory".data → k ≠ "files".data →
      registryFromJson (.obj fields) = .ok r →
      registryFromJson (.obj (fields ++ [(k, v)])) = .ok r) := by
  refine ⟨parse_of_missing, ?_, ?_, ?_⟩
  · intro fields h
    exact registryFields_no_directory fields none h
  · intro fields h
    exact registryFields_no_files fields none h
  · intro fields k v r hk1 hk2 hok
    exact registryFields_append_unknown k v hk1 hk2 fields none none r hok

/-- C6 witness: the amended theorem applied on concrete documents — a missing
    path, each required field missing, and an unknown field appended to a
    well-formed document. -/
theorem c6_parse_schema_witness :
    ProcessorAdapter.parse fsEmpty mgr.registry_file_path =
      .error (.FsError .NotFound "No such file or directory".data) ∧
    (∃ msg, registryFromJson (.obj [("files".data, .arr [])]) =
      .error (.JSONError msg)) ∧
    (∃ msg, registryFromJson (.obj [("directory".data, .str "output".data)]) =
      .error (.JSONError msg)) ∧
    registryFromJson (.obj ([("directory".data, .str "output".data),
        ("files".data, .arr [])] ++ [("extra".data, .str "x".data)])) =
      .ok ⟨⟨"output".data⟩, []⟩ :=
  ⟨c6_parse_schema_strictness.1 fsEmpty mgr.registry_file_path rfl,
   c6_parse_schema_strictness.2.1 _ (by decide),
   c6_parse_schema_strictness.2.2.1 _ (by decide),
   c6_parse_schema_strictness.2.2.2 _ _ _ _ (by decide) (by decide) rfl⟩

/-- C6 counterexample: a document with the unknown extra field `extra` parses
    successfully, contradicting the claim that an extra unknown field causes a
    deserialization failure. -/
theorem c6_extra_field_is_ignored :
    fsExtra mgr.registry_file_path = some extraFieldJson ∧
    ProcessorAdapter.parse fsExtra mgr.registry_file_path =
      .ok ⟨⟨"output".data⟩, []⟩ :=
  ⟨rfl, rfl⟩

/-- C7: with the scope directory present, `build_registry` on an already
    existing registry file fails with an AlreadyExists filesystem error and
    leaves the file system unchanged; in particular, after any successful
    `build_registry`, a second call for the same scope always fails that way. -/
theorem c7_build_registry_first_time_only (m : Manager) :
    (∀ (fs : Fs) (file : FileName), m.path_buf_wrapper.exists_ = true →
      (fs m.registry_file_path).isSome = true →
      m.build_registry fs file =
        (.error (.FsError .AlreadyExists "Registry file already exists".data), fs)) ∧
    (∀ (fs fs' : Fs) (file file2 : FileName),
      m.build_registry fs file = (.ok (), fs') →
      m.build_registry fs' file2 =
        (.error (.FsError .AlreadyExists "Registry file already exists".data), fs')) := by
  refine ⟨fun fs file hdir hfile =>
    build_registry_already_exists_err m fs file hdir hfile, ?_⟩
  intro fs fs' file file2 hok
  obtain ⟨hdir, hsome⟩ := build_registry_ok_state hok
  exact build_registry_already_exists_err m fs' file2 hdir hsome

/-- C7 witness: the registry file of `fsOne` already exists, so `build_registry`
    fails; and after a successful first `build_registry` on the empty file
    system, the second call fails with AlreadyExists. -/
theorem c7_build_registry_witness :
    mgr.build_registry fsOne ⟨"other".data⟩ =
      (.error (.FsError .AlreadyExists "Registry file already exists".data), fsOne) ∧
    mgr.build_registry
      (ProcessorAdapter.build fsEmpty mgr.registry_file_path
        ((Registry.new ⟨"output".data⟩).add_file (FileItem.new ⟨"readme".data⟩))).2
      ⟨"second".data⟩ =
      (.error (.FsError .AlreadyExists "Registry file already exists".data),
       (ProcessorAdapter.build fsEmpty mgr.registry_file_path
        ((Registry.new ⟨"output".data⟩).add_file (FileItem.new ⟨"readme".data⟩))).2) :=
  ⟨(c7_build_registry_first_time_only mgr).1 fsOne ⟨"other".data⟩ rfl rfl,
   (c7_build_registry_first_time_only mgr).2 fsEmpty _ ⟨"readme".data⟩ ⟨"second".data⟩ rfl⟩

/-- C8: every registry reachable from `Registry::new` by `add_file` and
    `remove_file` has at most one entry per name; and `add_file` on a present
    name removes the existing entry wholesale and inserts the given entry in
    its place (the entry stored under the name afterwards is exactly the given
    one, never a merge). -/
theorem c8_name_uniqueness_invariant (r : Registry) :
    (Reachable r → NamesUnique r) ∧
    (∀ f : FileItem, (r.get_file f.name).isSome = true →
      (r.add_file f).files = (r.remove_file f.name).files ++ [f] ∧
      (r.add_file f).get_file f.name = some f) := by
  refine ⟨reachable_namesUnique, ?_⟩
  intro f h
  exact ⟨add_file_present r f h, get_file_add_file_self r f⟩

/-- C8 witness: the invariant on a concretely reachable registry, and the
    replace-wholesale equation on `regOne`, which already holds `readme`. -/
theorem c8_name_uniqueness_witness :
    NamesUnique ((Registry.new ⟨"output".data⟩).add_file (FileItem.new ⟨"readme".data⟩)) ∧
    ((regOne.add_file ⟨⟨"readme".data⟩, [FileVersion.mk "2.0.0".data]⟩).files =
      (regOne.remove_file ⟨"readme".data⟩).files ++
        [⟨⟨"readme".data⟩, [FileVersion.mk "2.0.0".data]⟩] ∧
     (regOne.add_file ⟨⟨"readme".data⟩, [FileVersion.mk "2.0.0".data]⟩).get_file
        ⟨"readme".data⟩ =
      some ⟨⟨"readme".data⟩, [FileVersion.mk "2.0.0".data]⟩) :=
  ⟨(c8_name_uniqueness_invariant _).1
    (Reachable.add (FileItem.new ⟨"readme".data⟩) (Reachable.new ⟨"output".data⟩)),
   (c8_name_uniqueness_invariant regOne).2
    ⟨⟨"readme".data⟩, [FileVersion.mk "2.0.0".data]⟩ rfl⟩

/-- C9: `FileItem::update` is idempotent — applying it twice with the same
    version yields the same version list as applying it once (a duplicate
    version is never stored twice). -/
theorem c9_update_idempotent (f : FileItem) (v : FileVersion) :
    (f.update v).update v = f.update v :=
  update_update_self f v

/-- C10 (amended): when `v` is already contained in the version list,
    `update(v)` leaves the file item completely unchanged (name and ordered
    version list), so `get_last_version` is unchanged; and whenever the last
    element is not `v`, the version returned afterwards is not `v`. -/
theorem c10_update_mem_frame (f : FileItem) (v : FileVersion) (h : v ∈ f.versions) :
    f.update v = f ∧
    (f.update v).get_last_version = f.get_last_version ∧
    (f.versions.getLast? ≠ some v → (f.update v).get_last_version ≠ some v) := by
  have hu := update_of_mem h
  exact ⟨hu, by rw [hu], fun hne => by rw [hu]; exact hne⟩

/-- C10 witness: the amended theorem applied to an item holding `[0.1.0, 1.0.0]`
    and the contained version `0.1.0`. -/
theorem c10_update_mem_frame_witness :
    (FileItem.mk ⟨"w".data⟩ [FileVersion.mk "0.1.0".data,
        FileVersion.mk "1.0.0".data]).update (FileVersion.mk "0.1.0".data) =
      FileItem.mk ⟨"w".data⟩ [FileVersion.mk "0.1.0".data, FileVersion.mk "1.0.0".data] ∧
    ((FileItem.mk ⟨"w".data⟩ [FileVersion.mk "0.1.0".data,
        FileVersion.mk "1.0.0".data]).update
          (FileVersion.mk "0.1.0".data)).get_last_version =
      (FileItem.mk ⟨"w".data⟩ [FileVersion.mk "0.1.0".data,
        FileVersion.mk "1.0.0".data]).get_last_version ∧
    ((FileItem.mk ⟨"w".data⟩ [FileVersion.mk "0.1.0".data,
        FileVersion.mk "1.0.0".data]).versions.getLast? ≠
        some (FileVersion.mk "0.1.0".data) →
      ((FileItem.mk ⟨"w".data⟩ [FileVersion.mk "0.1.0".data,
        FileVersion.mk "1.0.0".data]).update
          (FileVersion.mk "0.1.0".data)).get_last_version ≠
        some (FileVersion.mk "0.1.0".data)) :=
  c10_update_mem_frame
    (FileItem.mk ⟨"w".data⟩ [FileVersion.mk "0.1.0".data, FileVersion.mk "1.0.0".data])
    (FileVersion.mk "0.1.0".data) (by decide)

/-- C10 counterexample: when the duplicated version also sits at the last
    position, it is present at a non-last position, yet `get_last_version`
    after `update(v)` still returns `v` — refuting the claim's "which is not
    v". -/
theorem c10_last_can_be_v :
    FileVersion.mk "1.0.0".data ∈
      dupItem.versions.take (dupItem.versions.length - 1) ∧
    (dupItem.update (FileVersion.mk "1.0.0".data)).get_last_version =
      some (FileVersion.mk "1.0.0".data) := by
  exact ⟨by decide, rfl⟩

end Ddai
